import Mathlib

/-!
Shallow embedding of the py-tree-sitter C binding
(src/tree_sitter/binding.c) and proofs about it.

The parsing engine (the tree-sitter C library behind tree_sitter/api.h)
is an external collaborator: its parse results are modelled as concrete
rose trees (RawNode), engine node handles as positions (paths) into such
a tree, and engine operations whose results the binding merely forwards
(ts_parser_parse_string, ts_query_cursor_exec, ts_tree_edit, ts_query_new)
as explicit function or data parameters.  Everything the binding itself
computes is translated directly from binding.c.
-/

/-- Engine-side syntax tree (one parse result).  Each node carries the
attributes the binding reads through the engine node API: grammar symbol
name, named flag, byte range, point range, the grammar field under which
the node sits in its parent (if any), and the ordered child list. -/
inductive RawNode where
  | mk (kind : String) (isNamed : Bool) (startByte endByte : Nat)
       (startPoint endPoint : Nat × Nat) (fieldName : Option String)
       (children : List RawNode)

def RawNode.kids : RawNode → List RawNode
  | .mk _ _ _ _ _ _ _ cs => cs

def RawNode.kind : RawNode → String
  | .mk k _ _ _ _ _ _ _ => k

def RawNode.startByte : RawNode → Nat
  | .mk _ _ s _ _ _ _ _ => s

def RawNode.endByte : RawNode → Nat
  | .mk _ _ _ e _ _ _ _ => e

def RawNode.startPoint : RawNode → Nat × Nat
  | .mk _ _ _ _ p _ _ _ => p

def RawNode.endPoint : RawNode → Nat × Nat
  | .mk _ _ _ _ _ p _ _ => p

def RawNode.fieldName : RawNode → Option String
  | .mk _ _ _ _ _ _ f _ => f

/-- Position lookup: the subtree reached from `t` by taking the child with
the given index at every step.  `none` when the path does not exist. -/
def subtreeAt : List Nat → RawNode → Option RawNode
  | [], t => some t
  | i :: p, t =>
    match t.kids[i]? with
    | some c => subtreeAt p c
    | none => none

/-- Model of the engine node handle TSNode: the identity of the engine tree
it lives in plus the position within that tree.  ts_node_eq on two handles
holds exactly when both components agree. -/
structure TSNode where
  tsTree : Nat
  path : List Nat
deriving DecidableEq

/-- Model of ts_node_eq: identity of tree and position. -/
def ts_node_eq (a b : TSNode) : Bool :=
  a.tsTree == b.tsTree && a.path == b.path

/-- Engine node attribute reads used by the binding; each consults the
engine tree at the handle's position. -/
def ts_node_child_count (t : RawNode) (n : TSNode) : Nat :=
  match subtreeAt n.path t with
  | some sub => sub.kids.length
  | none => 0

def ts_node_start_byte (t : RawNode) (n : TSNode) : Nat :=
  match subtreeAt n.path t with
  | some sub => sub.startByte
  | none => 0

def ts_node_end_byte (t : RawNode) (n : TSNode) : Nat :=
  match subtreeAt n.path t with
  | some sub => sub.endByte
  | none => 0

def ts_node_start_point (t : RawNode) (n : TSNode) : Nat × Nat :=
  match subtreeAt n.path t with
  | some sub => sub.startPoint
  | none => (0, 0)

/-- Model of the engine traversal cursor TSTreeCursor: the path of the node
the cursor was created at (the cursor never moves above it) and the
relative path from there to the current position. -/
structure TSTreeCursor where
  tsTree : Nat
  rootPath : List Nat
  relPath : List Nat
deriving DecidableEq

def cursorPath (c : TSTreeCursor) : List Nat :=
  c.rootPath ++ c.relPath

/-- Model of ts_tree_cursor_new / ts_tree_cursor_reset: a cursor freshly
positioned at the given node (reset discards all previous cursor state). -/
def ts_tree_cursor_reset (n : TSNode) : TSTreeCursor :=
  ⟨n.tsTree, n.path, []⟩

def ts_tree_cursor_current_node (c : TSTreeCursor) : TSNode :=
  ⟨c.tsTree, cursorPath c⟩

/-- Model of ts_tree_cursor_goto_first_child: descend to child 0 when the
current node has children; otherwise stay put and report failure. -/
def ts_tree_cursor_goto_first_child (t : RawNode) (c : TSTreeCursor) :
    TSTreeCursor × Bool :=
  match subtreeAt (cursorPath c) t with
  | some sub =>
    if 0 < sub.kids.length then
      ({ c with relPath := c.relPath ++ [0] }, true)
    else (c, false)
  | none => (c, false)

/-- Model of ts_tree_cursor_goto_next_sibling: advance the last step of the
relative path when a further sibling exists; the cursor never leaves the
subtree it was created at, so at the creation node it reports failure. -/
def ts_tree_cursor_goto_next_sibling (t : RawNode) (c : TSTreeCursor) :
    TSTreeCursor × Bool :=
  match c.relPath.getLast? with
  | none => (c, false)
  | some i =>
    match subtreeAt (c.rootPath ++ c.relPath.dropLast) t with
    | some parent =>
      if i + 1 < parent.kids.length then
        ({ c with relPath := c.relPath.dropLast ++ [i + 1] }, true)
      else (c, false)
    | none => (c, false)

/-- Model of ts_tree_cursor_goto_parent: drop the last step of the relative
path; at the creation node it reports failure. -/
def ts_tree_cursor_goto_parent (c : TSTreeCursor) : TSTreeCursor × Bool :=
  match c.relPath.getLast? with
  | none => (c, false)
  | some _ => ({ c with relPath := c.relPath.dropLast }, true)

/-- Model of ts_tree_cursor_current_field_name: the grammar field of the
current node within its parent, none at the creation node. -/
def ts_current_field_name (t : RawNode) (c : TSTreeCursor) : Option String :=
  match c.relPath with
  | [] => none
  | _ :: _ =>
    match subtreeAt (cursorPath c) t with
    | some sub => sub.fieldName
    | none => none

/-- Python-level Node object (struct Node in binding.c): the engine handle,
a reference to the owning Python Tree object (modelled by that object's
identity), and the lazily filled child-list cache (NULL at creation). -/
structure PyNode where
  node : TSNode
  tree : Nat
  childrenCache : Option (List TSNode)
deriving DecidableEq

/-- Python-level Tree object (struct Tree in binding.c): an identity for
the object itself, the engine parse result it owns, the retained source
buffer (a bytes object; NULL only theoretically, every tree built by
tree_new_internal holds one), and the edited flag. -/
structure PyTree where
  id : Nat
  raw : RawNode
  source : Option (List Nat)
  edited : Bool

/-- Python-level TreeCursor object (struct TreeCursor in binding.c). -/
structure PyTreeCursor where
  cursor : TSTreeCursor
  nodeCache : Option PyNode
  tree : Nat
deriving DecidableEq

/-- Python-level Query object (struct Query in binding.c): the compiled
pattern handle is engine-side; the binding keeps the capture-name table. -/
structure PyQuery where
  capture_names : List String
deriving DecidableEq

/-- Python values a binding entry point can receive, as far as the claims
need to distinguish them. -/
inductive PyVal where
  | bytes : List Nat → PyVal
  | tree : PyTree → PyVal
  | node : PyNode → PyVal
  | int : Int → PyVal
  | str : String → PyVal
  | noneVal : PyVal

/-- Model of node_new_internal: a fresh Node handle for an engine node,
holding the tree reference, with an empty child cache. -/
def node_new_internal (n : TSNode) (tree : Nat) : PyNode :=
  ⟨n, tree, none⟩

/-- The rich-comparison operators tp_richcompare can be invoked with. -/
inductive CmpOp where
  | eq | ne | lt | le | gt | ge
deriving DecidableEq

def node_is_an_instance : PyVal → Bool
  | .node _ => true
  | _ => false

/-- Model of node_compare (tp_richcompare of Node): when the other operand
is a Node, ts_node_eq decides Py_EQ and Py_NE and every other operator
returns False; when the other operand is not a Node, the function returns
False for every operator. -/
def node_compare (self : PyNode) (other : PyVal) (op : CmpOp) : Bool :=
  match other with
  | .node o =>
    match op with
    | .eq => ts_node_eq self.node o.node
    | .ne => !(ts_node_eq self.node o.node)
    | _ => false
  | _ => false

/-- Model of the C do-while loop in node_get_children: collect the current
cursor node, then advance to the next sibling and repeat while the advance
succeeds.  Recursion is paid for with fuel; the caller passes the child
count, which bounds the number of successful sibling advances. -/
def childCollect (t : RawNode) : Nat → TSTreeCursor → List TSNode
  | 0, c => [ts_tree_cursor_current_node c]
  | fuel + 1, c =>
    if (ts_tree_cursor_goto_next_sibling t c).2 then
      ts_tree_cursor_current_node c ::
        childCollect t fuel (ts_tree_cursor_goto_next_sibling t c).1
    else [ts_tree_cursor_current_node c]

/-- Model of node_get_children: return the cached list when present;
otherwise reset the shared traversal cursor to this node, descend to the
first child, run the collection loop (skipped entirely when the child
count is zero, leaving the empty list), store the result in the cache and
return it.  The updated Node is returned alongside the list to make the
cache write explicit. -/
def node_get_children (t : RawNode) (self : PyNode) : PyNode × List TSNode :=
  match self.childrenCache with
  | some cached => (self, cached)
  | none =>
    let k := ts_node_child_count t self.node
    let cs :=
      if 0 < k then
        childCollect t k
          (ts_tree_cursor_goto_first_child t (ts_tree_cursor_reset self.node)).1
      else []
    ({ self with childrenCache := some cs }, cs)

/-- Model of node_get_child_count: read the count from the engine. -/
def node_get_child_count (t : RawNode) (self : PyNode) : Nat :=
  ts_node_child_count t self.node

/-- Model of tree_get_text: None when the tree was edited or holds no
source buffer, the retained buffer otherwise. -/
def tree_get_text (self : PyTree) : Option (List Nat) :=
  if self.edited then none
  else self.source

/-- Python slice semantics src[s:e] for nonnegative bounds on a bytes-like
buffer: indices are clamped to the buffer length, elements with index in
the interval from s (inclusive) to e (exclusive) survive. -/
def pySliceBytes (src : List Nat) (s e : Nat) : List Nat :=
  (src.take e).drop s

/-- Model of node_get_text: delegate to the owning tree text; None when it
is unavailable; otherwise the slice of the buffer between the node start
and end bytes. -/
def node_get_text (t : PyTree) (self : PyNode) : Option (List Nat) :=
  match tree_get_text t with
  | none => none
  | some src =>
    some (pySliceBytes src (ts_node_start_byte t.raw self.node)
      (ts_node_end_byte t.raw self.node))

/-- Model of tree_new_internal: a fresh Tree taking ownership of the engine
parse result, retaining the source bytes, with the edited flag clear. -/
def tree_new_internal (id : Nat) (raw : RawNode) (source : List Nat) : PyTree :=
  ⟨id, raw, some source, false⟩

/-- Edit descriptor TSInputEdit as assembled by tree_edit. -/
structure TSInputEdit where
  start_byte : Nat
  old_end_byte : Nat
  new_end_byte : Nat
  start_point : Nat × Nat
  old_end_point : Nat × Nat
  new_end_point : Nat × Nat
deriving DecidableEq

/-- Outcome of a tree.edit call as observed by the Python caller.  When
argument parsing fails, binding.c returns with the exception raised by
PyArg_ParseTupleAndKeywords still pending, which the interpreter surfaces
to the caller as an error; argError models that surfaced failure. -/
inductive EditOutcome where
  | ok
  | argError
deriving DecidableEq

/-- Model of tree_edit: malformed arguments (modelled as none) leave the
tree untouched and surface an error; well-formed arguments forward the
edit descriptor to the engine (ts_tree_edit, an external mutation of the
parse result, passed as a function) and set the edited flag. -/
def tree_edit (ts_tree_edit : RawNode → TSInputEdit → RawNode)
    (self : PyTree) (args : Option TSInputEdit) : PyTree × EditOutcome :=
  match args with
  | some e => ({ self with raw := ts_tree_edit self.raw e, edited := true }, .ok)
  | none => (self, .argError)

/-- Model of tree_cursor_get_node: return the cached current-position Node
when present, otherwise derive one from the cursor state, cache it and
return it.  The updated TreeCursor is returned alongside to make the cache
write explicit. -/
def tree_cursor_get_node (self : PyTreeCursor) : PyTreeCursor × PyNode :=
  match self.nodeCache with
  | some n => (self, n)
  | none =>
    let n := node_new_internal (ts_tree_cursor_current_node self.cursor) self.tree
    ({ self with nodeCache := some n }, n)

/-- Model of tree_cursor_current_field_name: a pure read of the cursor
state; the TreeCursor is returned unchanged. -/
def tree_cursor_current_field_name (t : RawNode) (self : PyTreeCursor) :
    PyTreeCursor × Option String :=
  (self, ts_current_field_name t self.cursor)

/-- Model of tree_cursor_goto_parent: clear the node cache exactly when the
engine move succeeds. -/
def tree_cursor_goto_parent (self : PyTreeCursor) : PyTreeCursor × Bool :=
  if (ts_tree_cursor_goto_parent self.cursor).2 then
    (⟨(ts_tree_cursor_goto_parent self.cursor).1, none, self.tree⟩, true)
  else
    (⟨(ts_tree_cursor_goto_parent self.cursor).1, self.nodeCache, self.tree⟩, false)

/-- Model of tree_cursor_goto_first_child: clear the node cache exactly
when the engine move succeeds. -/
def tree_cursor_goto_first_child (t : RawNode) (self : PyTreeCursor) :
    PyTreeCursor × Bool :=
  if (ts_tree_cursor_goto_first_child t self.cursor).2 then
    (⟨(ts_tree_cursor_goto_first_child t self.cursor).1, none, self.tree⟩, true)
  else
    (⟨(ts_tree_cursor_goto_first_child t self.cursor).1, self.nodeCache, self.tree⟩,
      false)

/-- Model of tree_cursor_goto_next_sibling: clear the node cache exactly
when the engine move succeeds. -/
def tree_cursor_goto_next_sibling (t : RawNode) (self : PyTreeCursor) :
    PyTreeCursor × Bool :=
  if (ts_tree_cursor_goto_next_sibling t self.cursor).2 then
    (⟨(ts_tree_cursor_goto_next_sibling t self.cursor).1, none, self.tree⟩, true)
  else
    (⟨(ts_tree_cursor_goto_next_sibling t self.cursor).1, self.nodeCache, self.tree⟩,
      false)

/-- Outcome of a Parser.parse call. -/
inductive ParseOutcome where
  | ok : PyTree → ParseOutcome
  | typeError : String → ParseOutcome
  | parseFailure : ParseOutcome

def PyVal.isBytes : PyVal → Bool
  | .bytes _ => true
  | _ => false

def PyVal.isTreeVal : PyVal → Bool
  | .tree _ => true
  | _ => false

/-- Model of parser_parse.  The engine call ts_parser_parse_string is an
external collaborator and is passed as a function from the optional old
parse result and the source bytes to an optional new parse result (NULL
modelled as none).  The Bool in the result records whether the engine was
invoked, so that the argument type checks can be seen to fire first.
The old tree value is only read, never modified. -/
def parser_parse (engine : Option RawNode → List Nat → Option RawNode)
    (newId : Nat) (source : PyVal) (oldTree : Option PyVal) :
    ParseOutcome × Bool :=
  match source with
  | .bytes src =>
    match oldTree with
    | none =>
      match engine none src with
      | some raw => (.ok (tree_new_internal newId raw src), true)
      | none => (.parseFailure, true)
    | some (.tree old) =>
      match engine (some old.raw) src with
      | some raw => (.ok (tree_new_internal newId raw src), true)
      | none => (.parseFailure, true)
    | some _ => (.typeError "Second argument to parse must be a Tree", false)
  | _ => (.typeError "First argument to parse must be bytes", false)

/-- Model of a tree-sitter language definition as far as the binding reads
it: an identity and the version the engine reports for it. -/
structure TSLanguage where
  id : Nat
  version : Nat
deriving DecidableEq

/-- Model of the engine parser object: the currently bound language. -/
structure TSParser where
  language : Option TSLanguage
deriving DecidableEq

/-- Outcome of a Parser.set_language call with a well-formed Language
argument (the attribute and integer checks that precede the version gate
raise TypeError or ValueError and never reach it). -/
inductive SetLanguageOutcome where
  | ok
  | versionMismatch (version minV curV : Nat)
deriving DecidableEq

/-- Model of parser_set_language: reject with a version-mismatch error
naming the offending version and both compatibility bounds when the
version lies outside the closed interval from minV to curV; otherwise
rebind the engine parser to the language.  minV and curV model the
engine-fixed constants TREE_SITTER_MIN_COMPATIBLE_LANGUAGE_VERSION and
TREE_SITTER_LANGUAGE_VERSION. -/
def parser_set_language (minV curV : Nat) (self : TSParser)
    (lang : TSLanguage) : TSParser × SetLanguageOutcome :=
  if lang.version < minV ∨ curV < lang.version then
    (self, .versionMismatch lang.version minV curV)
  else
    ({ self with language := some lang }, .ok)

/-- One engine-reported capture: the captured node and the capture-name
index within the compiled query. -/
structure TSQueryCapture where
  node : TSNode
  index : Nat
deriving DecidableEq

/-- Model of query_captures.  The start_point and end_point arguments are
parsed by the C code but never used afterwards: the code never calls
ts_query_cursor_set_point_range, so the engine stream (a function of the
query and the node only, passed here as engineCaptures) is drained in
full.  Every yielded pair wraps the captured engine node in a fresh Node
holding the input node's tree reference, paired with the capture name
looked up by index (in range for every index the engine reports). -/
def query_captures (q : PyQuery) (node : PyNode)
    (startPoint endPoint : Option (Nat × Nat))
    (engineCaptures : List TSQueryCapture) : List (PyNode × String) :=
  engineCaptures.map (fun cap =>
    (node_new_internal cap.node node.tree, q.capture_names.getD cap.index ""))

/-- Lexicographic order on points, for stating range membership. -/
def pointLeB (a b : Nat × Nat) : Bool :=
  a.1 < b.1 || (a.1 == b.1 && a.2 ≤ b.2)

/-- Word characters of the query-error token scan in query_new_internal:
alphanumeric or one of minus, underscore, question mark, dot. -/
def isQueryWordChar (c : Char) : Bool :=
  c.isAlphanum || c == '-' || c == '_' || c == '?' || c == '.'

/-- The token query_new_internal extracts at a compile-error offset: scan
forward from the offset while the character is a word character. -/
def errorWordAt (source : List Char) (offset : Nat) : List Char :=
  (source.drop offset).takeWhile isQueryWordChar

/-- The engine error taxonomy cases distinguished by the switch in
query_new_internal (the default branch covers every other value). -/
inductive TSQueryErrorKind where
  | nodeType | field | capture | other
deriving DecidableEq

/-- The query construction errors raised by query_new_internal, each
carrying the extracted token (or, for a generic pattern error, only
the offset). -/
inductive QueryBuildError where
  | unknownNodeType (token : String)
  | unknownField (token : String)
  | unknownCapture (token : String)
  | invalidSyntax (offset : Nat)
deriving DecidableEq

/-- Model of query_new_internal.  The engine compile ts_query_new is an
external collaborator, passed as its result: on success the capture-name
table (read off the compiled query by the loop after the error check), on
failure the error offset and taxonomy kind.  On failure the binding scans
the minimal identifier token at the offset and raises the matching
error naming that token. -/
def query_new_internal (source : List Char)
    (engineResult : Except (Nat × TSQueryErrorKind) (List String)) :
    Except QueryBuildError PyQuery :=
  match engineResult with
  | .ok names => .ok ⟨names⟩
  | .error (offset, kind) =>
    match kind with
    | .nodeType => .error (.unknownNodeType (String.mk (errorWordAt source offset)))
    | .field => .error (.unknownField (String.mk (errorWordAt source offset)))
    | .capture => .error (.unknownCapture (String.mk (errorWordAt source offset)))
    | .other => .error (.invalidSyntax offset)

/-!
Concrete sample data used by the witness theorems: a two-child parse
result for a source of five bytes, and a second parse result whose only
child sits at row 5 of the document.
-/

def leafA : RawNode := .mk "identifier" true 0 1 (0, 0) (0, 1) (some "left") []

def leafB : RawNode := .mk "number" true 2 5 (0, 2) (0, 5) none []

def sampleRaw : RawNode := .mk "expr" true 0 5 (0, 0) (0, 5) none [leafA, leafB]

def sampleSource : List Nat := [120, 32, 49, 43, 50]

def sampleTree : PyTree := ⟨1, sampleRaw, some sampleSource, false⟩

def sampleEditedTree : PyTree := ⟨1, sampleRaw, some sampleSource, true⟩

def sampleRootNode : PyNode := ⟨⟨1, []⟩, 1, none⟩

def sampleChildNode : PyNode := ⟨⟨1, [1]⟩, 1, none⟩

def farLeaf : RawNode := .mk "identifier" true 10 12 (5, 0) (5, 2) none []

def farRaw : RawNode := .mk "module" true 0 12 (0, 0) (5, 2) none [farLeaf]

/-- C1: for an unedited tree the tree text is the retained source buffer
and every node text is the byte slice from the node start byte to the node
end byte of that buffer; once the tree is edited, both the tree text and
every node text are None (an absent result, not an error), whatever the
edit was. -/
theorem C1_text_round_trip :
    ∀ (t : PyTree) (self : PyNode) (src : List Nat) (sub : RawNode),
      t.source = some src →
      subtreeAt self.node.path t.raw = some sub →
      ((t.edited = false →
          tree_get_text t = some src ∧
          node_get_text t self
            = some ((src.drop sub.startByte).take (sub.endByte - sub.startByte)))
        ∧ (t.edited = true →
          tree_get_text t = none ∧ node_get_text t self = none)) := by
  intro t self src sub hs hsub
  constructor
  · intro he
    have h1 : tree_get_text t = some src := by
      simp [tree_get_text, he, hs]
    refine ⟨h1, ?_⟩
    simp [node_get_text, h1, pySliceBytes, ts_node_start_byte, ts_node_end_byte,
      hsub, List.drop_take]
  · intro he
    have h1 : tree_get_text t = none := by
      simp [tree_get_text, he]
    exact ⟨h1, by simp [node_get_text, h1]⟩

/-- Witness for C1 at the sample tree: the node covering bytes 2 to 5 has
text equal to the last three source bytes while the tree is unedited, and
both text accessors are None on the edited variant. -/
theorem C1_text_round_trip_witness :
    tree_get_text sampleTree = some sampleSource
    ∧ node_get_text sampleTree sampleChildNode = some [49, 43, 50]
    ∧ tree_get_text sampleEditedTree = none
    ∧ node_get_text sampleEditedTree sampleChildNode = none := by
  have h1 := C1_text_round_trip sampleTree sampleChildNode sampleSource leafB rfl rfl
  have h2 :=
    C1_text_round_trip sampleEditedTree sampleChildNode sampleSource leafB rfl rfl
  refine ⟨(h1.1 rfl).1, ?_, (h2.2 rfl).1, (h2.2 rfl).2⟩
  have h3 := (h1.1 rfl).2
  simpa using h3

/-- C3 counterexample: the claim says a comparison of a Node against a
non-Node value makes != come out True; in node_compare the non-Node branch
returns False for every operator, so != against the integer 5 is False. -/
theorem C3_ne_non_node_counterexample :
    node_compare sampleRootNode (.int 5) CmpOp.ne = false := rfl

/-- C3 as amended: two Node handles compare equal under == iff they denote
the same engine tree position (and != is its negation), this equality is
reflexive, symmetric and transitive and ignores handle identity, and every
comparison of a Node against a non-Node value returns False (== and alike
!= both) instead of failing. -/
theorem C3_structural_equality :
    ∀ (a b c : PyNode) (v : PyVal) (op : CmpOp),
      (node_compare a (.node b) CmpOp.eq = true ↔ a.node = b.node)
      ∧ (node_compare a (.node b) CmpOp.ne = true ↔ a.node ≠ b.node)
      ∧ node_compare a (.node a) CmpOp.eq = true
      ∧ node_compare a (.node b) CmpOp.eq = node_compare b (.node a) CmpOp.eq
      ∧ (node_compare a (.node b) CmpOp.eq = true →
          node_compare b (.node c) CmpOp.eq = true →
          node_compare a (.node c) CmpOp.eq = true)
      ∧ (node_is_an_instance v = false → node_compare a v op = false) := by
  have key : ∀ x y : PyNode, node_compare x (.node y) CmpOp.eq = true ↔ x.node = y.node := by
    intro x y
    rcases hx : x.node with ⟨xt, xp⟩
    rcases hy : y.node with ⟨yt, yp⟩
    simp [node_compare, ts_node_eq, hx, hy, TSNode.mk.injEq]
  intro a b c v op
  refine ⟨key a b, ?_, (key a a).mpr rfl, ?_, ?_, ?_⟩
  · have : node_compare a (.node b) CmpOp.ne = !(node_compare a (.node b) CmpOp.eq) := rfl
    rw [this]
    by_cases h : a.node = b.node
    · simp [(key a b).mpr h, h]
    · have h1 : node_compare a (.node b) CmpOp.eq = false := by
        rcases hb : node_compare a (.node b) CmpOp.eq with _ | _
        · rfl
        · exact absurd ((key a b).mp hb) h
      simp [h1, h]
  · by_cases h : a.node = b.node
    · rw [(key a b).mpr h, (key b a).mpr h.symm]
    · have h1 : node_compare a (.node b) CmpOp.eq = false := by
        rcases hb : node_compare a (.node b) CmpOp.eq with _ | _
        · rfl
        · exact absurd ((key a b).mp hb) h
      have h2 : node_compare b (.node a) CmpOp.eq = false := by
        rcases hb : node_compare b (.node a) CmpOp.eq with _ | _
        · rfl
        · exact absurd ((key b a).mp hb).symm h
      rw [h1, h2]
  · intro h1 h2
    exact (key a c).mpr (((key a b).mp h1).trans ((key b c).mp h2))
  · intro hv
    cases v <;> simp_all [node_compare, node_is_an_instance]

/-- Witness for C3: two distinct handles for the root position (different
tree references and caches) compare equal, and an == comparison against a
string returns False. -/
theorem C3_structural_equality_witness :
    node_compare sampleRootNode (.node ⟨⟨1, []⟩, 99, some []⟩) CmpOp.eq = true
    ∧ node_compare sampleRootNode (.str "x") CmpOp.eq = false := by
  have h := C3_structural_equality sampleRootNode ⟨⟨1, []⟩, 99, some []⟩
    sampleRootNode (.str "x") CmpOp.eq
  exact ⟨h.1.mpr rfl, h.2.2.2.2.2 rfl⟩

/-- C10: the four ordering comparisons of a Node against any value (Node
or not) return False without error; in particular a node is not <= or >=
itself although == on itself is True. -/
theorem C10_ordering_comparisons :
    ∀ (a : PyNode) (v : PyVal),
      node_compare a v CmpOp.lt = false
      ∧ node_compare a v CmpOp.le = false
      ∧ node_compare a v CmpOp.gt = false
      ∧ node_compare a v CmpOp.ge = false
      ∧ node_compare a (.node a) CmpOp.le = false
      ∧ node_compare a (.node a) CmpOp.ge = false
      ∧ node_compare a (.node a) CmpOp.eq = true := by
  intro a v
  refine ⟨?_, ?_, ?_, ?_, rfl, rfl, ?_⟩
  · cases v <;> rfl
  · cases v <;> rfl
  · cases v <;> rfl
  · cases v <;> rfl
  · simp [node_compare, ts_node_eq]

/-- C6: with a well-formed Language argument, set_language reports a
version mismatch naming the offending version and both compatibility
bounds exactly when the version lies outside the closed interval between
the engine minimum and current constants; on such a failure the parser
keeps its previous language binding, and when the version is in bounds
the parser is rebound to the new language, replacing any previous one. -/
theorem C6_set_language_version_gate :
    ∀ (minV curV : Nat) (p : TSParser) (lang : TSLanguage),
      ((parser_set_language minV curV p lang).2
          = SetLanguageOutcome.versionMismatch lang.version minV curV
        ↔ (lang.version < minV ∨ curV < lang.version))
      ∧ ((lang.version < minV ∨ curV < lang.version) →
          (parser_set_language minV curV p lang).1 = p)
      ∧ ((minV ≤ lang.version ∧ lang.version ≤ curV) →
          parser_set_language minV curV p lang
            = (⟨some lang⟩, SetLanguageOutcome.ok)) := by
  intro minV curV p lang
  by_cases h : lang.version < minV ∨ curV < lang.version
  · refine ⟨?_, fun _ => ?_, fun hc => ?_⟩
    · simp [parser_set_language, if_pos h, h]
    · simp [parser_set_language, if_pos h]
    · exact absurd h (by omega)
  · refine ⟨?_, fun hc => absurd hc h, fun _ => ?_⟩
    · simp only [parser_set_language, if_neg h]
      constructor
      · intro hc
        simp at hc
      · intro hc
        exact absurd hc h
    · simp [parser_set_language, if_neg h]

/-- Witness for C6 at the spec scenario: a language reporting version 0
(below the minimum 9 of a bounds pair 9..13) is rejected with the
mismatch error carrying 0, 9, 13 while the previously bound language is
kept, and a language at version 13 is accepted and replaces it. -/
theorem C6_set_language_version_gate_witness :
    parser_set_language 9 13 ⟨some ⟨5, 13⟩⟩ ⟨7, 0⟩
        = (⟨some ⟨5, 13⟩⟩, SetLanguageOutcome.versionMismatch 0 9 13)
    ∧ parser_set_language 9 13 ⟨some ⟨5, 13⟩⟩ ⟨7, 13⟩
        = (⟨some ⟨7, 13⟩⟩, SetLanguageOutcome.ok) := by
  have h1 := C6_set_language_version_gate 9 13 ⟨some ⟨5, 13⟩⟩ ⟨7, 0⟩
  have h2 := C6_set_language_version_gate 9 13 ⟨some ⟨5, 13⟩⟩ ⟨7, 13⟩
  constructor
  · exact Prod.ext (h1.2.1 (Or.inl (by decide))) (h1.1.mpr (Or.inl (by decide)))
  · exact h2.2.2 ⟨by decide, by decide⟩

/-- C9: tree.edit with well-formed arguments forwards the edit descriptor
to the engine, sets the edited flag and reports success, mutating the
same Tree object (same identity, same retained source) rather than making
a new one; with malformed arguments the tree is left fully unchanged and
the failure is surfaced to the caller as an error. -/
theorem C9_edit_sets_flag :
    ∀ (f : RawNode → TSInputEdit → RawNode) (t : PyTree)
      (args : Option TSInputEdit),
      (∀ e, args = some e →
        tree_edit f t args = (⟨t.id, f t.raw e, t.source, true⟩, EditOutcome.ok))
      ∧ (args = none → tree_edit f t args = (t, EditOutcome.argError)) := by
  intro f t args
  constructor
  · intro e he
    subst he
    rfl
  · intro he
    subst he
    rfl

/-- Witness for C9: a concrete edit on the sample tree sets the edited
flag in place and succeeds, and a malformed call leaves the tree exactly
as it was and reports the argument error. -/
theorem C9_edit_sets_flag_witness :
    tree_edit (fun r _ => r) sampleTree
        (some ⟨0, 1, 2, (0, 0), (0, 1), (0, 2)⟩)
      = (⟨1, sampleRaw, some sampleSource, true⟩, EditOutcome.ok)
    ∧ tree_edit (fun r _ => r) sampleTree none
      = (sampleTree, EditOutcome.argError) := by
  have h1 := C9_edit_sets_flag (fun r _ => r) sampleTree
    (some ⟨0, 1, 2, (0, 0), (0, 1), (0, 2)⟩)
  have h2 := C9_edit_sets_flag (fun r _ => r) sampleTree none
  exact ⟨h1.1 ⟨0, 1, 2, (0, 0), (0, 1), (0, 2)⟩ rfl, h2.2 rfl⟩

/-- Engine goto_parent leaves the cursor unchanged when it fails. -/
theorem goto_parent_fail_fix (c : TSTreeCursor) :
    (ts_tree_cursor_goto_parent c).2 = false →
    (ts_tree_cursor_goto_parent c).1 = c := by
  rcases h : c.relPath.getLast? with _ | i <;>
    simp [ts_tree_cursor_goto_parent, h]

/-- Engine goto_first_child leaves the cursor unchanged when it fails. -/
theorem goto_first_child_fail_fix (t : RawNode) (c : TSTreeCursor) :
    (ts_tree_cursor_goto_first_child t c).2 = false →
    (ts_tree_cursor_goto_first_child t c).1 = c := by
  rcases h : subtreeAt (cursorPath c) t with _ | sub
  · simp [ts_tree_cursor_goto_first_child, h]
  · by_cases hk : 0 < sub.kids.length <;>
      simp [ts_tree_cursor_goto_first_child, h, hk]

/-- Engine goto_next_sibling leaves the cursor unchanged when it fails. -/
theorem goto_next_sibling_fail_fix (t : RawNode) (c : TSTreeCursor) :
    (ts_tree_cursor_goto_next_sibling t c).2 = false →
    (ts_tree_cursor_goto_next_sibling t c).1 = c := by
  rcases h : c.relPath.getLast? with _ | i
  · simp [ts_tree_cursor_goto_next_sibling, h]
  · rcases hp : subtreeAt (c.rootPath ++ c.relPath.dropLast) t with _ | parent
    · simp [ts_tree_cursor_goto_next_sibling, h, hp]
    · by_cases hk : i + 1 < parent.kids.length <;>
        simp [ts_tree_cursor_goto_next_sibling, h, hp, hk]

/-- C4: every successful TreeCursor navigation (goto_parent,
goto_first_child, goto_next_sibling returning True) clears the cached
current-position Node; a navigation returning False leaves the whole
cursor object unchanged; the node accessor never moves the cursor,
returns the cached Node unchanged when one is present and otherwise
derives the Node from the current cursor state; current_field_name leaves
the cursor object unchanged. -/
theorem C4_cursor_cache_invalidation :
    ∀ (t : RawNode) (self : PyTreeCursor),
      ((tree_cursor_goto_parent self).2 = true →
          (tree_cursor_goto_parent self).1.nodeCache = none)
      ∧ ((tree_cursor_goto_parent self).2 = false →
          (tree_cursor_goto_parent self).1 = self)
      ∧ ((tree_cursor_goto_first_child t self).2 = true →
          (tree_cursor_goto_first_child t self).1.nodeCache = none)
      ∧ ((tree_cursor_goto_first_child t self).2 = false →
          (tree_cursor_goto_first_child t self).1 = self)
      ∧ ((tree_cursor_goto_next_sibling t self).2 = true →
          (tree_cursor_goto_next_sibling t self).1.nodeCache = none)
      ∧ ((tree_cursor_goto_next_sibling t self).2 = false →
          (tree_cursor_goto_next_sibling t self).1 = self)
      ∧ (tree_cursor_get_node self).1.cursor = self.cursor
      ∧ (∀ n, self.nodeCache = some n → tree_cursor_get_node self = (self, n))
      ∧ (self.nodeCache = none →
          (tree_cursor_get_node self).2
            = node_new_internal (ts_tree_cursor_current_node self.cursor) self.tree)
      ∧ (tree_cursor_current_field_name t self).1 = self := by
  intro t self
  obtain ⟨c, cache, tr⟩ := self
  refine ⟨?_, ?_, ?_, ?_, ?_, ?_, ?_, ?_, ?_, rfl⟩
  · by_cases h : (ts_tree_cursor_goto_parent c).2 <;>
      simp [tree_cursor_goto_parent, h]
  · by_cases h : (ts_tree_cursor_goto_parent c).2 <;>
      simp [tree_cursor_goto_parent, h, goto_parent_fail_fix c]
  · by_cases h : (ts_tree_cursor_goto_first_child t c).2 <;>
      simp [tree_cursor_goto_first_child, h]
  · by_cases h : (ts_tree_cursor_goto_first_child t c).2 <;>
      simp [tree_cursor_goto_first_child, h, goto_first_child_fail_fix t c]
  · by_cases h : (ts_tree_cursor_goto_next_sibling t c).2 <;>
      simp [tree_cursor_goto_next_sibling, h]
  · by_cases h : (ts_tree_cursor_goto_next_sibling t c).2 <;>
      simp [tree_cursor_goto_next_sibling, h, goto_next_sibling_fail_fix t c]
  · rcases cache with _ | n <;> simp [tree_cursor_get_node]
  · intro n hn
    cases hn
    rfl
  · intro hn
    cases hn
    rfl

/-- Witness for C4 on the sample tree: a successful goto_parent from the
first child clears a populated node cache, a failing goto_next_sibling at
the cursor root leaves the cursor object untouched, and the node accessor
returns a populated cache unchanged. -/
theorem C4_cursor_cache_invalidation_witness :
    (tree_cursor_goto_parent ⟨⟨1, [], [0]⟩, some sampleRootNode, 1⟩).1.nodeCache
        = none
    ∧ (tree_cursor_goto_next_sibling sampleRaw ⟨⟨1, [], []⟩, some sampleRootNode, 1⟩).1
        = ⟨⟨1, [], []⟩, some sampleRootNode, 1⟩
    ∧ tree_cursor_get_node ⟨⟨1, [], [0]⟩, some sampleRootNode, 1⟩
        = (⟨⟨1, [], [0]⟩, some sampleRootNode, 1⟩, sampleRootNode) := by
  obtain ⟨p1, p2, p3, p4, p5, p6, p7, p8, p9, p10⟩ :=
    C4_cursor_cache_invalidation sampleRaw ⟨⟨1, [], [0]⟩, some sampleRootNode, 1⟩
  obtain ⟨q1, q2, q3, q4, q5, q6, q7, q8, q9, q10⟩ :=
    C4_cursor_cache_invalidation sampleRaw ⟨⟨1, [], []⟩, some sampleRootNode, 1⟩
  exact ⟨p1 rfl, q6 rfl, p8 sampleRootNode rfl⟩

/-- C7: for well-typed arguments, parse fails with ParseFailure exactly
when the engine reports no result, and otherwise returns a fresh Tree
with a clear edited flag that owns the new parse result and retains the
source bytes, leaving any given old tree untouched; a non-bytes first
argument or a non-Tree second argument raises the type error before the
engine is invoked (the Bool component records engine invocation). -/
theorem C7_parse_outcomes :
    ∀ (engine : Option RawNode → List Nat → Option RawNode) (newId : Nat),
      (∀ src old raw, engine (some old.raw) src = some raw →
        parser_parse engine newId (.bytes src) (some (.tree old))
          = (.ok (tree_new_internal newId raw src), true))
      ∧ (∀ src old, engine (some old.raw) src = none →
        parser_parse engine newId (.bytes src) (some (.tree old))
          = (.parseFailure, true))
      ∧ (∀ src raw, engine none src = some raw →
        parser_parse engine newId (.bytes src) none
          = (.ok (tree_new_internal newId raw src), true))
      ∧ (∀ src, engine none src = none →
        parser_parse engine newId (.bytes src) none = (.parseFailure, true))
      ∧ (∀ raw src, (tree_new_internal newId raw src).edited = false
          ∧ (tree_new_internal newId raw src).source = some src
          ∧ (tree_new_internal newId raw src).raw = raw)
      ∧ (∀ v old, v.isBytes = false →
        parser_parse engine newId v old
          = (.typeError "First argument to parse must be bytes", false))
      ∧ (∀ src w, w.isTreeVal = false →
        parser_parse engine newId (.bytes src) (some w)
          = (.typeError "Second argument to parse must be a Tree", false)) := by
  intro engine newId
  refine ⟨?_, ?_, ?_, ?_, ?_, ?_, ?_⟩
  · intro src old raw h
    simp [parser_parse, h]
  · intro src old h
    simp [parser_parse, h]
  · intro src raw h
    simp [parser_parse, h]
  · intro src h
    simp [parser_parse, h]
  · intro raw src
    exact ⟨rfl, rfl, rfl⟩
  · intro v old hv
    cases v <;> simp_all [parser_parse, PyVal.isBytes]
  · intro src w hw
    cases w <;> simp_all [parser_parse, PyVal.isTreeVal]

/-- Witness for C7: with an engine that always fails the well-typed call
reports ParseFailure after invoking the engine, with one that succeeds a
fresh unedited Tree retaining the source is returned, and an integer
source is rejected before the engine runs. -/
theorem C7_parse_outcomes_witness :
    parser_parse (fun _ _ => none) 3 (.bytes [49]) none
        = (.parseFailure, true)
    ∧ parser_parse (fun _ _ => some sampleRaw) 3 (.bytes sampleSource) none
        = (.ok ⟨3, sampleRaw, some sampleSource, false⟩, true)
    ∧ parser_parse (fun _ _ => some sampleRaw) 3 (.int 7) none
        = (.typeError "First argument to parse must be bytes", false)
    ∧ parser_parse (fun _ _ => some sampleRaw) 3 (.bytes sampleSource)
          (some (.int 7))
        = (.typeError "Second argument to parse must be a Tree", false) := by
  have h1 := C7_parse_outcomes (fun _ _ => none) 3
  have h2 := C7_parse_outcomes (fun _ _ => some sampleRaw) 3
  exact ⟨h1.2.2.2.1 [49] rfl, h2.2.2.1 sampleSource sampleRaw rfl,
    h2.2.2.2.2.2.1 (.int 7) none rfl, h2.2.2.2.2.2.2 sampleSource (.int 7) rfl⟩

/-- The error-token scan is maximal: the character right after the
extracted token (when any remains) is not a word character. -/
theorem takeWhile_stop (p : Char → Bool) :
    ∀ (l : List Char) (c : Char) (cs : List Char),
      l.drop (l.takeWhile p).length = c :: cs → p c = false := by
  intro l
  induction l with
  | nil =>
    intro c cs h
    simp at h
  | cons a l ih =>
    intro c cs h
    by_cases hp : p a = true
    · rw [List.takeWhile_cons, if_pos hp] at h
      simp only [List.length_cons, List.drop_succ_cons] at h
      exact ih c cs h
    · rw [List.takeWhile_cons, if_neg hp] at h
      simp only [List.length_nil, List.drop_zero] at h
      cases h
      simpa using hp

/-- C8: on a query compile failure the binding reports the engine taxonomy
kind and names the token obtained by scanning forward from the failure
offset while the character is alphanumeric or one of minus, underscore,
question mark, dot: the token consists of word characters only, is a
prefix of the remaining pattern source at the offset, and the scan stops
at the first non-word character, so the whole remaining source is not
reported; the generic syntax failure reports only the offset. -/
theorem C8_query_error_token :
    ∀ (source : List Char) (offset : Nat),
      query_new_internal source (.error (offset, .nodeType))
          = .error (.unknownNodeType (String.mk (errorWordAt source offset)))
      ∧ query_new_internal source (.error (offset, .field))
          = .error (.unknownField (String.mk (errorWordAt source offset)))
      ∧ query_new_internal source (.error (offset, .capture))
          = .error (.unknownCapture (String.mk (errorWordAt source offset)))
      ∧ query_new_internal source (.error (offset, .other))
          = .error (.invalidSyntax offset)
      ∧ (∀ c ∈ errorWordAt source offset, isQueryWordChar c = true)
      ∧ List.IsPrefix (errorWordAt source offset) (source.drop offset)
      ∧ (∀ c cs,
          (source.drop offset).drop (errorWordAt source offset).length = c :: cs →
          isQueryWordChar c = false) := by
  intro source offset
  refine ⟨rfl, rfl, rfl, rfl, ?_, ?_, ?_⟩
  · intro c hc
    exact List.mem_takeWhile_imp hc
  · exact List.takeWhile_prefix isQueryWordChar
  · intro c cs h
    exact takeWhile_stop isQueryWordChar (source.drop offset) c cs h

/-- Witness for C8 at the spec scenario: for the pattern source
(totally_bogus_node) with the engine reporting a node-type error at
offset 1, the raised error is UnknownNodeType naming exactly
totally_bogus_node, which is shorter than the remaining source. -/
theorem C8_query_error_token_witness :
    query_new_internal ("(totally_bogus_node)".toList)
        (.error (1, .nodeType))
      = .error (.unknownNodeType
          (String.mk (errorWordAt ("(totally_bogus_node)".toList) 1)))
    ∧ String.mk (errorWordAt ("(totally_bogus_node)".toList) 1)
        = "totally_bogus_node"
    ∧ errorWordAt ("(totally_bogus_node)".toList) 1
        ≠ ("(totally_bogus_node)".toList).drop 1 := by
  have h := C8_query_error_token ("(totally_bogus_node)".toList) 1
  exact ⟨h.1, by decide, by decide⟩

/-- Stepping the engine cursor among the children of a node: from child i
the cursor moves to child i+1 exactly when one exists. -/
theorem next_sibling_among_children (t : RawNode) (tid : Nat) (r : List Nat)
    (sub : RawNode) (h : subtreeAt r t = some sub) (i : Nat) :
    ts_tree_cursor_goto_next_sibling t ⟨tid, r, [i]⟩
      = if i + 1 < sub.kids.length then (⟨tid, r, [i + 1]⟩, true)
        else (⟨tid, r, [i]⟩, false) := by
  simp only [ts_tree_cursor_goto_next_sibling]
  simp [h]

/-- Running the collection loop from child i of a node gathers exactly the
children from i on, in document order, provided the fuel covers the
remaining siblings. -/
theorem childCollect_run (t : RawNode) (tid : Nat) (r : List Nat)
    (sub : RawNode) (h : subtreeAt r t = some sub) :
    ∀ (fuel i : Nat), i < sub.kids.length → sub.kids.length - i ≤ fuel + 1 →
      childCollect t fuel ⟨tid, r, [i]⟩
        = (List.range (sub.kids.length - i)).map
            (fun j => TSNode.mk tid (r ++ [i + j])) := by
  intro fuel
  induction fuel with
  | zero =>
    intro i hi hle
    have hk : sub.kids.length - i = 1 := by omega
    rw [hk]
    simp [childCollect, ts_tree_cursor_current_node, cursorPath, show List.range 1 = [0] from rfl]
  | succ fuel ih =>
    intro i hi hle
    rw [show childCollect t (fuel + 1) ⟨tid, r, [i]⟩
        = if (ts_tree_cursor_goto_next_sibling t ⟨tid, r, [i]⟩).2 then
            ts_tree_cursor_current_node ⟨tid, r, [i]⟩ ::
              childCollect t fuel (ts_tree_cursor_goto_next_sibling t ⟨tid, r, [i]⟩).1
          else [ts_tree_cursor_current_node ⟨tid, r, [i]⟩] from rfl]
    rw [next_sibling_among_children t tid r sub h i]
    by_cases hik : i + 1 < sub.kids.length
    · rw [if_pos hik]
      simp only [hik, if_true]
      rw [ih (i + 1) hik (by omega)]
      have hsplit : sub.kids.length - i = (sub.kids.length - (i + 1)) + 1 := by
        omega
      rw [hsplit, List.range_succ_eq_map, List.map_cons, List.map_map]
      have harith : ∀ j : Nat, i + 1 + j = i + (j + 1) := by omega
      simp [ts_tree_cursor_current_node, cursorPath, Function.comp, harith]
    · rw [if_neg hik]
      simp only [hik, if_false]
      have hk : sub.kids.length - i = 1 := by omega
      rw [hk]
      simp [ts_tree_cursor_current_node, cursorPath, show List.range 1 = [0] from rfl]

/-- Descending from a freshly reset cursor at a node with children lands
on child 0 and succeeds. -/
theorem first_child_from_reset (t : RawNode) (tid : Nat) (r : List Nat)
    (sub : RawNode) (h : subtreeAt r t = some sub)
    (hk : 0 < sub.kids.length) :
    ts_tree_cursor_goto_first_child t ⟨tid, r, []⟩ = (⟨tid, r, [0]⟩, true) := by
  simp [ts_tree_cursor_goto_first_child, cursorPath, h, hk]

/-- C2: for a Node with an unfilled cache, child_count is the engine count
(independent of the cache), reading children runs the cursor loop and
yields exactly that many child handles in document order (the empty
sequence for a childless node), the result is stored in the cache, and a
repeated access is a pure lookup returning the same sequence. -/
theorem C2_children_materialization :
    ∀ (t : RawNode) (self : PyNode) (sub : RawNode),
      subtreeAt self.node.path t = some sub →
      self.childrenCache = none →
      node_get_child_count t self = sub.kids.length
      ∧ (node_get_children t self).2
          = (List.range sub.kids.length).map
              (fun j => TSNode.mk self.node.tsTree (self.node.path ++ [j]))
      ∧ (node_get_children t self).2.length = node_get_child_count t self
      ∧ node_get_children t (node_get_children t self).1
          = ((node_get_children t self).1, (node_get_children t self).2)
      ∧ (node_get_children t self).1.childrenCache
          = some (node_get_children t self).2
      ∧ (sub.kids.length = 0 → (node_get_children t self).2 = [])
      ∧ (∀ cache, node_get_child_count t ⟨self.node, self.tree, cache⟩
            = node_get_child_count t self) := by
  intro t self sub
  obtain ⟨n, tr, cache⟩ := self
  intro hsub hcache
  dsimp only at hsub hcache
  subst hcache
  have hcount : ts_node_child_count t n = sub.kids.length := by
    simp [ts_node_child_count, hsub]
  by_cases hk : 0 < sub.kids.length
  · have hfc := first_child_from_reset t n.tsTree n.path sub hsub hk
    have hloop := childCollect_run t n.tsTree n.path sub hsub
      sub.kids.length 0 hk (by omega)
    have hng : node_get_children t ⟨n, tr, none⟩
        = (⟨n, tr, some ((List.range sub.kids.length).map
              (fun j => TSNode.mk n.tsTree (n.path ++ [j])))⟩,
           (List.range sub.kids.length).map
              (fun j => TSNode.mk n.tsTree (n.path ++ [j]))) := by
      simp only [node_get_children, ts_tree_cursor_reset, hcount, if_pos hk]
      have hres : ts_tree_cursor_goto_first_child t
          (⟨n.tsTree, n.path, []⟩ : TSTreeCursor)
          = ((⟨n.tsTree, n.path, [0]⟩ : TSTreeCursor), true) := hfc
      rw [hres]
      rw [show ((⟨n.tsTree, n.path, [0]⟩ : TSTreeCursor), true).1
          = (⟨n.tsTree, n.path, [0]⟩ : TSTreeCursor) from rfl]
      rw [hloop]
      simp
    refine ⟨by simp [node_get_child_count, hcount], ?_, ?_, ?_, ?_, ?_, ?_⟩
    · rw [hng]
    · rw [hng]
      simp [node_get_child_count, hcount]
    · rw [hng]
      rfl
    · rw [hng]
    · intro h0
      omega
    · intro cache2
      rfl
  · have hk0 : sub.kids.length = 0 := by omega
    have hng : node_get_children t ⟨n, tr, none⟩ = (⟨n, tr, some []⟩, []) := by
      simp [node_get_children, hcount, hk0]
    refine ⟨by simp [node_get_child_count, hcount], ?_, ?_, ?_, ?_, ?_, ?_⟩
    · rw [hng]
      simp [hk0]
    · rw [hng]
      simp [node_get_child_count, hcount, hk0]
    · rw [hng]
      rfl
    · rw [hng]
    · intro _
      rw [hng]
    · intro cache2
      rfl

/-- Witness for C2 on the sample tree: the root reports two children, the
materialized list is the two child handles in document order, a second
access returns the cached pair unchanged, and the leaf child yields the
empty sequence. -/
theorem C2_children_materialization_witness :
    node_get_child_count sampleRaw sampleRootNode = 2
    ∧ (node_get_children sampleRaw sampleRootNode).2 = [⟨1, [0]⟩, ⟨1, [1]⟩]
    ∧ node_get_children sampleRaw (node_get_children sampleRaw sampleRootNode).1
        = ((node_get_children sampleRaw sampleRootNode).1,
           (node_get_children sampleRaw sampleRootNode).2)
    ∧ (node_get_children sampleRaw sampleChildNode).2 = [] := by
  have h := C2_children_materialization sampleRaw sampleRootNode sampleRaw rfl rfl
  have h2 := C2_children_materialization sampleRaw sampleChildNode leafB rfl rfl
  refine ⟨h.1, ?_, h.2.2.2.1, h2.2.2.2.2.2.1 rfl⟩
  rw [h.2.1]
  decide

/-- C5 at the failing input: query_captures invoked with the point range
from (0,0) to (1,0) on a tree whose only capturable node starts at row 5
still yields that capture, because binding.c parses the start_point and
end_point arguments but never forwards them to the engine query cursor;
the range is ignored rather than restricting the results.  The same-tree
half of the claim does hold: the yielded Node carries the input node's
tree reference. -/
theorem C5_point_range_ignored :
    query_captures ⟨["expr"]⟩ ⟨⟨2, []⟩, 7, none⟩ (some (0, 0)) (some (1, 0))
        [⟨⟨2, [0]⟩, 0⟩]
      = [(⟨⟨2, [0]⟩, 7, none⟩, "expr")]
    ∧ pointLeB (ts_node_start_point farRaw ⟨2, [0]⟩) (1, 0) = false
    ∧ query_captures ⟨["expr"]⟩ ⟨⟨2, []⟩, 7, none⟩ (some (0, 0)) (some (1, 0))
        [⟨⟨2, [0]⟩, 0⟩]
      = query_captures ⟨["expr"]⟩ ⟨⟨2, []⟩, 7, none⟩ none none [⟨⟨2, [0]⟩, 0⟩]
    ∧ (query_captures ⟨["expr"]⟩ ⟨⟨2, []⟩, 7, none⟩ (some (0, 0)) (some (1, 0))
        [⟨⟨2, [0]⟩, 0⟩]).map (fun pr => pr.1.tree)
      = [(⟨⟨2, []⟩, 7, none⟩ : PyNode).tree] := by
  refine ⟨rfl, ?_, rfl, rfl⟩
  decide
